import Mathlib

/-!
Package redistest: the one-time container start, the published address and the client.

Embedding of `redistest.go`. The package keeps its state in package-level
variables (`redisVersion`, `once`, `resource`, `addr`, `cleanup`); here they are
the fields of `Proc`, passed explicitly. The container runtime (dockertest) and
the retry library (backoff) are outside the package: what they answer during a
call is an input of that call.
-/

namespace Redistest

/-! ## Go values used by the package -/

/-- Go `error` value: the text of `Error()` and, for an error that has an
`Unwrap` method, the error it gives back. -/
inductive GoError where
  | plain (msg : String)
  | wrapping (msg : String) (cause : GoError)
  deriving DecidableEq, Repr

/-- Method `Error()` of an error value. -/
def GoError.Error : GoError → String
  | .plain m => m
  | .wrapping m _ => m

/-- Function `errors.Unwrap`: the wrapped cause, `none` when there is no `Unwrap` method. -/
def GoError.Unwrap : GoError → Option GoError
  | .plain _ => none
  | .wrapping _ c => some c

/-- Call `fmt.Errorf(head + "%v", err)`: the verb `%v` prints `err.Error()` into
the text, and without a `%w` verb the result has no `Unwrap` method. -/
def Errorf_v (head : String) (err : GoError) : GoError :=
  .plain (head ++ err.Error)

/-- One second as a `time.Duration` (nanoseconds). -/
def Second : Nat := 1000000000

/-- Handle `*dockertest.Pool`: its identity and its `MaxWait` field. -/
structure Pool where
  id : Nat
  MaxWait : Nat
  deriving DecidableEq, Repr

/-- Handle `*dockertest.Resource`: its identity and the port bindings of the container. -/
structure Resource where
  id : Nat
  ports : List (String × String)
  deriving DecidableEq, Repr

/-- Method `GetPort` of dockertest: the host port bound to a container port, `""` when unbound. -/
def Resource.GetPort (r : Resource) (id : String) : String :=
  (r.ports.lookup id).getD ""

/-- Argument `*dockertest.RunOptions` of `RunWithOptions`, with the two fields `Start` sets. -/
structure RunOptions where
  Repository : String
  Tag : String
  deriving DecidableEq, Repr

/-- What the container runtime answers during one `Start` call. Each Go call
returning `(handle, error)` is a pair of options: `none` is Go's `nil`. -/
structure Docker where
  NewPool : Option Pool × Option GoError
  Ping : Option GoError
  RunWithOptions : RunOptions → Option Resource × Option GoError

/-- The function value stored in `cleanup` (line 106): a closure over the local
variable `pool` of the `Start` call that built it. -/
structure Cleanup where
  pool : Option Pool
  deriving DecidableEq, Repr

/-! ## Package state -/

/-- Constant `DefaultImageTag` (line 16). -/
def DefaultImageTag : String := "7.4.1-alpine"

/-- Variable `maxWait` (line 32); no code assigns it. -/
def maxWait : Nat := 60 * Second

/-- The package-level variables of lines 18-30, and `launches`: the record of
the `RunWithOptions` calls the process has made on the runtime, in order. -/
structure Proc where
  redisVersion : String
  once : Bool
  resource : Option Resource
  addr : String
  cleanup : Option Cleanup
  launches : List RunOptions
  deriving DecidableEq, Repr

/-- State of a fresh process: the variable initialisers of lines 18-32. -/
def Proc.init : Proc :=
  { redisVersion := DefaultImageTag, once := false, resource := none,
    addr := "", cleanup := none, launches := [] }

/-- How a call ends: it returns, it panics (a run-time fault), or the process
exits (`log.Fatalf`). The first two carry the package state left behind. -/
inductive Outcome (α : Type) where
  | returned (v : α) (s : Proc)
  | panicked (s : Proc)
  | exited (code : Nat)

/-- Package state after the call, `none` when the process has exited. -/
def Outcome.proc? {α : Type} : Outcome α → Option Proc
  | .returned _ s => some s
  | .panicked s => some s
  | .exited _ => none

/-- Returned value of the call, `none` when it did not return. -/
def Outcome.value? {α : Type} : Outcome α → Option α
  | .returned v _ => some v
  | .panicked _ => none
  | .exited _ => none

/-! ## The functions of the package -/

/-- Function `SetImageTag` (lines 22-24). -/
def SetImageTag (version : String) (s : Proc) : Proc :=
  { s with redisVersion := version }

/-- Which case of the `select` in `Addr` fired (lines 43-48); the context and
the three-second timer decide it. An already cancelled context gives `ctxDone`. -/
inductive Fired where
  | ctxDone
  | timeout
  deriving DecidableEq, Repr

/-- What an `Addr` call gives back, and whether it went through the `select`. -/
structure AddrResult where
  value : String
  waited : Bool
  deriving DecidableEq, Repr

/-- Function `Addr` (lines 37-50). `s` is the package state when the call
starts; `later` is the package state when the `select` case runs, after
whatever other goroutines did meanwhile. -/
def Addr (s : Proc) (fired : Fired) (later : Proc) : AddrResult :=
  if s.addr ≠ "" then
    { value := s.addr, waited := false }
  else
    match fired with
    | .ctxDone => { value := "", waited := true }
    | .timeout => { value := later.addr, waited := true }

/-- Value `*redis.Client` as built at lines 55-59. -/
structure RedisClient where
  Addr : String
  Password : String
  DB : Nat
  deriving DecidableEq, Repr

/-- Function `Client` (lines 54-74). `retry` is what `backoff.Retry` returns
for the ping operation: `none` after a successful probe, otherwise the error it
ended with. -/
def Client (s : Proc) (fired : Fired) (later : Proc) (retry : Option GoError) :
    Option RedisClient × Option GoError :=
  let client : RedisClient := { Addr := (Addr s fired later).value, Password := "", DB := 0 }
  match retry with
  | some err => (none, some (Errorf_v "[redistest] failed to connect to redis server: " err))
  | none => (some client, none)

/-- The function passed to `once.Do` (lines 93-112), run with the guard already
taken. It gives the package state and the local `err` of the enclosing `Start`
call; `none` as a whole when `resource.GetPort` is reached with a nil `resource`. -/
def startOnce (d : Docker) (pool : Pool) (s : Proc) : Proc × Option (Option GoError) :=
  let opts : RunOptions := { Repository := "redis", Tag := s.redisVersion }
  let ran := d.RunWithOptions opts
  let s1 : Proc := { s with resource := ran.1, launches := s.launches ++ [opts] }
  match ran.2 with
  | some e => (s1, some (some (Errorf_v "can't start redis server: " e)))
  | none =>
    match s1.resource with
    | none => (s1, none)
    | some r =>
      ({ s1 with addr := "localhost:" ++ r.GetPort "6379/tcp",
                 cleanup := some { pool := some pool } }, some none)

/-- Function `Start` (lines 77-117). `sync.Once` marks itself done when the
function it runs returns or panics, and never runs a function again. -/
def Start (d : Docker) (s : Proc) : Outcome (Option Cleanup × Option GoError) :=
  match d.NewPool with
  | (none, _) => .panicked s
  | (some pool0, err0) =>
    let pool : Pool := { pool0 with MaxWait := maxWait }
    match err0 with
    | some e => .returned (none, some (Errorf_v "can't connect to docker: " e)) s
    | none =>
      match d.Ping with
      | some _ => .exited 1
      | none =>
        if s.once then
          .returned (s.cleanup, none) s
        else
          match startOnce d pool { s with once := true } with
          | (s1, none) => .panicked s1
          | (s1, some (some e)) => .returned (none, some e) s1
          | (s1, some none) => .returned (s1.cleanup, none) s1

/-! ## Sequences of calls -/

/-- One call on the package. `addr` and `client` carry the inputs of `Addr` and
`Client` that come from outside the package. -/
inductive Op where
  | start (d : Docker)
  | setImageTag (version : String)
  | addr (fired : Fired)
  | client (fired : Fired) (retry : Option GoError)

/-- Package state after one call; `none` when the call ended the process.
`Addr` and `Client` assign no package variable. A panicking `Start` leaves the
state of the moment of the fault to whoever recovers it. -/
def step (s : Proc) : Op → Option Proc
  | .start d => (Start d s).proc?
  | .setImageTag v => some (SetImageTag v s)
  | .addr _ => some s
  | .client _ _ => some s

/-- Package state after a serialised sequence of calls, `none` when one of them
ended the process before the sequence was over. -/
def run : Proc → List Op → Option Proc
  | s, [] => some s
  | s, op :: ops => (step s op).bind (fun s1 => run s1 ops)

/-- The runtime is connectable and alive: `NewPool` gives a pool and no error,
and the ping of line 87 succeeds. -/
def Docker.reachable (d : Docker) : Prop :=
  (∃ p, d.NewPool = (some p, none)) ∧ d.Ping = none

/-- The image tag in force after a sequence of calls that began with tag `t`:
the argument of the last `SetImageTag` among them, `t` when there is none. -/
def lastTag (t : String) : List Op → String
  | [] => t
  | .setImageTag v :: ops => lastTag v ops
  | _ :: ops => lastTag t ops

/-- A runtime whose launch succeeds with host port 6379. -/
def dockerUp : Docker :=
  { NewPool := (some { id := 1, MaxWait := 0 }, none)
    Ping := none
    RunWithOptions := fun _ => (some { id := 7, ports := [("6379/tcp", "6379")] }, none) }

/-- A runtime whose launch fails. -/
def dockerRunFails : Docker :=
  { NewPool := (some { id := 1, MaxWait := 0 }, none)
    Ping := none
    RunWithOptions := fun _ => (none, some (.plain "no such image")) }

/-- A runtime whose pool cannot be created. -/
def dockerNoPool : Docker :=
  { NewPool := (none, some (.plain "invalid endpoint"))
    Ping := none
    RunWithOptions := fun _ => (none, some (.plain "unused")) }

/-- Package state after a first `Start` on `dockerUp`. -/
def procUp : Proc :=
  { redisVersion := DefaultImageTag, once := true,
    resource := some { id := 7, ports := [("6379/tcp", "6379")] },
    addr := "localhost:6379", cleanup := some { pool := some { id := 1, MaxWait := maxWait } },
    launches := [{ Repository := "redis", Tag := DefaultImageTag }] }

/-- Package state after a first `Start` on `dockerRunFails`. -/
def procFailed : Proc :=
  { redisVersion := DefaultImageTag, once := true, resource := none,
    addr := "", cleanup := none,
    launches := [{ Repository := "redis", Tag := DefaultImageTag }] }

/-! ## How `Start` moves the package state -/

/-- The variables a launch writes are the same in both states. -/
def Proc.frozen (s s1 : Proc) : Prop :=
  s1.once = s.once ∧ s1.addr = s.addr ∧ s1.cleanup = s.cleanup ∧
    s1.resource = s.resource ∧ s1.launches = s.launches

/-- Either the guard is untaken and nothing of a launch is there, or it is
taken and exactly one launch is on record. -/
def Proc.Inv (s : Proc) : Prop :=
  (s.once = false ∧ s.addr = "" ∧ s.cleanup = none ∧ s.resource = none ∧ s.launches = []) ∨
    (s.once = true ∧ s.launches.length = 1)

instance (s s1 : Proc) : Decidable (s.frozen s1) := by
  unfold Proc.frozen
  infer_instance

instance (s : Proc) : Decidable s.Inv := by
  unfold Proc.Inv
  infer_instance

instance (d : Docker) : Decidable d.reachable :=
  decidable_of_iff (d.NewPool.1.isSome = true ∧ d.NewPool.2 = none ∧ d.Ping = none) (by
    rcases h : d.NewPool with ⟨pool, err⟩
    cases pool <;> simp [Docker.reachable, h])

theorem Start_of_once (d : Docker) (s s1 : Proc) (h : s.once = true)
    (h1 : (Start d s).proc? = some s1) : s1 = s := by
  unfold Start at h1
  split at h1
  · simpa [Outcome.proc?] using h1.symm
  · split at h1
    · simpa [Outcome.proc?] using h1.symm
    · split at h1
      · simp [Outcome.proc?] at h1
      · simp [h, Outcome.proc?] at h1
        exact h1.symm

theorem Start_reachable_of_once (d : Docker) (s : Proc) (hd : d.reachable)
    (h : s.once = true) : Start d s = .returned (s.cleanup, none) s := by
  obtain ⟨⟨p, hp⟩, hping⟩ := hd
  simp [Start, hp, hping, h]

theorem Start_redisVersion (d : Docker) (s s1 : Proc)
    (h1 : (Start d s).proc? = some s1) : s1.redisVersion = s.redisVersion := by
  unfold Start at h1
  split at h1
  · simp [Outcome.proc?] at h1; rw [← h1]
  · split at h1
    · simp [Outcome.proc?] at h1; rw [← h1]
    · split at h1
      · simp [Outcome.proc?] at h1
      · split at h1
        · simp [Outcome.proc?] at h1; rw [← h1]
        · unfold startOnce at h1
          simp only [] at h1
          split at h1 <;> rename_i heq <;> split at heq <;> try split at heq
          all_goals
            simp only [Prod.mk.injEq] at heq
            obtain ⟨hs, _⟩ := heq
            simp only [Outcome.proc?, Option.some.injEq] at h1
            rw [← h1, ← hs]

theorem Start_reachable_fresh (d : Docker) (s : Proc) (hd : d.reachable)
    (h : s.once = false) :
    ∃ s1, (Start d s).proc? = some s1 ∧ s1.once = true ∧
      s1.launches = s.launches ++ [{ Repository := "redis", Tag := s.redisVersion }] := by
  obtain ⟨⟨p, hp⟩, hping⟩ := hd
  simp only [Start, hp, hping, h, startOnce]
  rcases d.RunWithOptions { Repository := "redis", Tag := s.redisVersion } with ⟨res, err⟩
  cases err <;> cases res <;> simp [Outcome.proc?]

theorem Start_fresh_cases (d : Docker) (s s1 : Proc) (h : s.once = false)
    (h1 : (Start d s).proc? = some s1) :
    s1 = s ∨ (s1.once = true ∧
      s1.launches = s.launches ++ [{ Repository := "redis", Tag := s.redisVersion }]) := by
  rcases hnp : d.NewPool with ⟨pool, err0⟩
  cases pool with
  | none => left; simpa [Start, hnp, Outcome.proc?] using h1.symm
  | some p =>
    cases err0 with
    | some e => left; simpa [Start, hnp, Outcome.proc?] using h1.symm
    | none =>
      cases hping : d.Ping with
      | some e => simp [Start, hnp, hping, Outcome.proc?] at h1
      | none =>
        right
        obtain ⟨s2, h2, h3⟩ := Start_reachable_fresh d s ⟨⟨p, hnp⟩, hping⟩ h
        rw [h2] at h1
        simp only [Option.some.injEq] at h1
        rw [← h1]
        exact h3

theorem Proc.frozen_refl (s : Proc) : s.frozen s :=
  ⟨rfl, rfl, rfl, rfl, rfl⟩

theorem step_frozen (s s1 : Proc) (op : Op) (h : s.once = true)
    (h1 : step s op = some s1) : s.frozen s1 := by
  cases op with
  | start d =>
    have := Start_of_once d s s1 h h1
    subst this
    exact s1.frozen_refl
  | setImageTag v =>
    simp only [step, Option.some.injEq] at h1
    subst h1
    exact ⟨rfl, rfl, rfl, rfl, rfl⟩
  | addr f =>
    simp only [step, Option.some.injEq] at h1
    subst h1
    exact s.frozen_refl
  | client f r =>
    simp only [step, Option.some.injEq] at h1
    subst h1
    exact s.frozen_refl

theorem run_frozen (ops : List Op) (s s1 : Proc) (h : s.once = true)
    (h1 : run s ops = some s1) : s.frozen s1 := by
  induction ops generalizing s with
  | nil =>
    simp only [run, Option.some.injEq] at h1
    subst h1
    exact s.frozen_refl
  | cons op ops ih =>
    simp only [run] at h1
    cases hs : step s op with
    | none => simp [hs] at h1
    | some s2 =>
      simp only [hs, Option.some_bind] at h1
      obtain ⟨a1, a2, a3, a4, a5⟩ := step_frozen s s2 op h hs
      obtain ⟨b1, b2, b3, b4, b5⟩ := ih s2 (by rw [a1, h]) h1
      exact ⟨b1.trans a1, b2.trans a2, b3.trans a3, b4.trans a4, b5.trans a5⟩

theorem step_Inv (s s1 : Proc) (op : Op) (h : s.Inv) (h1 : step s op = some s1) :
    s1.Inv := by
  rcases h with ⟨h0, ha, hc, hr, hl⟩ | ⟨h0, hl⟩
  · cases op with
    | start d =>
      rcases Start_fresh_cases d s s1 h0 h1 with rfl | ⟨g1, g2⟩
      · exact Or.inl ⟨h0, ha, hc, hr, hl⟩
      · exact Or.inr ⟨g1, by simp [g2, hl]⟩
    | setImageTag v =>
      simp only [step, Option.some.injEq] at h1
      subst h1
      exact Or.inl ⟨h0, ha, hc, hr, hl⟩
    | addr f =>
      simp only [step, Option.some.injEq] at h1
      subst h1
      exact Or.inl ⟨h0, ha, hc, hr, hl⟩
    | client f r =>
      simp only [step, Option.some.injEq] at h1
      subst h1
      exact Or.inl ⟨h0, ha, hc, hr, hl⟩
  · obtain ⟨a1, _, _, _, a5⟩ := step_frozen s s1 op h0 h1
    exact Or.inr ⟨by rw [a1, h0], by rw [a5, hl]⟩

theorem run_Inv (ops : List Op) (s s1 : Proc) (h : s.Inv) (h1 : run s ops = some s1) :
    s1.Inv := by
  induction ops generalizing s with
  | nil =>
    simp only [run, Option.some.injEq] at h1
    subst h1
    exact h
  | cons op ops ih =>
    simp only [run] at h1
    cases hs : step s op with
    | none => simp [hs] at h1
    | some s2 =>
      simp only [hs, Option.some_bind] at h1
      exact ih s2 (step_Inv s s2 op h hs) h1

theorem Proc.init_Inv : Proc.init.Inv :=
  Or.inl ⟨rfl, rfl, rfl, rfl, rfl⟩

theorem step_redisVersion (s s1 : Proc) (op : Op) (h1 : step s op = some s1) (ops : List Op) :
    lastTag s1.redisVersion ops = lastTag s.redisVersion (op :: ops) := by
  cases op with
  | start d => rw [Start_redisVersion d s s1 h1]; rfl
  | setImageTag v =>
    simp only [step, Option.some.injEq] at h1
    subst h1
    rfl
  | addr f =>
    simp only [step, Option.some.injEq] at h1
    subst h1
    rfl
  | client f r =>
    simp only [step, Option.some.injEq] at h1
    subst h1
    rfl

theorem run_redisVersion (ops : List Op) (s s1 : Proc) (h1 : run s ops = some s1) :
    s1.redisVersion = lastTag s.redisVersion ops := by
  induction ops generalizing s with
  | nil =>
    simp only [run, Option.some.injEq] at h1
    subst h1
    rfl
  | cons op ops ih =>
    simp only [run] at h1
    cases hs : step s op with
    | none => simp [hs] at h1
    | some s2 =>
      simp only [hs, Option.some_bind] at h1
      rw [ih s2 h1, step_redisVersion s s2 op hs ops]

/-- With every `Start` call finding the runtime connectable and alive, no call
ends the process, and the guard is taken as soon as one `Start` call is made. -/
theorem run_reachable (ops : List Op) (s : Proc)
    (hall : ∀ d, Op.start d ∈ ops → d.reachable) :
    ∃ s1, run s ops = some s1 ∧ (s.once = true ∨ (∃ d, Op.start d ∈ ops) → s1.once = true) := by
  induction ops generalizing s with
  | nil => exact ⟨s, rfl, fun h => h.elim id (fun ⟨_, hd⟩ => by simp at hd)⟩
  | cons op ops ih =>
    have hall2 : ∀ d, Op.start d ∈ ops → d.reachable :=
      fun d hd => hall d (List.mem_cons_of_mem _ hd)
    have key : ∃ s2, step s op = some s2 ∧ (s.once = true → s2.once = true) ∧
        ((∃ d, op = Op.start d) → s2.once = true) := by
      cases op with
      | start d =>
        have hd := hall d (List.mem_cons_self _ _)
        cases hb : s.once with
        | true =>
          refine ⟨s, ?_, fun _ => hb, fun _ => hb⟩
          simp [step, Start_reachable_of_once d s hd hb, Outcome.proc?]
        | false =>
          obtain ⟨s2, g1, g2, _⟩ := Start_reachable_fresh d s hd hb
          exact ⟨s2, g1, fun _ => g2, fun _ => g2⟩
      | setImageTag v => exact ⟨_, rfl, fun h => h, fun ⟨_, h⟩ => by cases h⟩
      | addr f => exact ⟨_, rfl, fun h => h, fun ⟨_, h⟩ => by cases h⟩
      | client f r => exact ⟨_, rfl, fun h => h, fun ⟨_, h⟩ => by cases h⟩
    obtain ⟨s2, k1, k2, k3⟩ := key
    obtain ⟨s3, r1, r2⟩ := ih s2 hall2
    refine ⟨s3, by simp [run, k1, r1], ?_⟩
    rintro (h | ⟨d, hd⟩)
    · exact r2 (Or.inl (k2 h))
    · rcases List.mem_cons.mp hd with rfl | hd
      · exact r2 (Or.inl (k3 ⟨d, rfl⟩))
      · exact r2 (Or.inr ⟨d, hd⟩)

theorem Start_returned_ok (d : Docker) (s s1 : Proc) (c : Option Cleanup)
    (h : Start d s = .returned (c, none) s1) : s1.once = true ∧ s1.cleanup = c := by
  rcases hnp : d.NewPool with ⟨pool, err0⟩
  rcases hping : d.Ping with _ | e1
  all_goals rcases hb : s.once
  all_goals rcases hr : d.RunWithOptions { Repository := "redis", Tag := s.redisVersion }
    with ⟨res, err⟩
  all_goals cases pool <;> cases err0 <;> cases res <;> cases err
  all_goals simp [Start, startOnce, hnp, hping, hb, hr] at h
  all_goals obtain ⟨h2, h3⟩ := h
  all_goals subst h3
  all_goals first | exact ⟨hb, h2⟩ | exact ⟨rfl, h2⟩

/-! ## The claims -/

/-- C1: in a serialised sequence of calls made by a fresh process that holds at
least one `Start` call, every `Start` call finding the runtime connectable and
alive, the sequence runs to its end and exactly one `RunWithOptions` call is
made over the whole of it, whatever that call answers. -/
theorem C1_exactly_one_launch (ops : List Op)
    (hall : ∀ d, Op.start d ∈ ops → d.reachable) (hN : ∃ d, Op.start d ∈ ops) :
    ∃ s1, run Proc.init ops = some s1 ∧ s1.launches.length = 1 := by
  obtain ⟨s1, h1, h2⟩ := run_reachable ops Proc.init hall
  refine ⟨s1, h1, ?_⟩
  rcases run_Inv ops Proc.init s1 Proc.init_Inv h1 with ⟨h0, _⟩ | ⟨_, hl⟩
  · rw [h2 (Or.inr hN)] at h0
    cases h0
  · exact hl

theorem C1_exactly_one_launch_witness :
    (∀ d, Op.start d ∈ [Op.start dockerRunFails, Op.setImageTag "6", Op.start dockerUp] →
        d.reachable) ∧
      (∃ d, Op.start d ∈ [Op.start dockerRunFails, Op.setImageTag "6", Op.start dockerUp]) ∧
      ∃ s1, run Proc.init [Op.start dockerRunFails, Op.setImageTag "6", Op.start dockerUp] =
          some s1 ∧ s1.launches.length = 1 :=
  have hall : ∀ d, Op.start d ∈ [Op.start dockerRunFails, Op.setImageTag "6", Op.start dockerUp] →
      d.reachable := by
    intro d hd
    simp only [List.mem_cons, Op.start.injEq, List.mem_singleton, reduceCtorEq, false_or,
      List.not_mem_nil, or_false] at hd
    rcases hd with rfl | rfl
    · exact ⟨⟨_, rfl⟩, rfl⟩
    · exact ⟨⟨_, rfl⟩, rfl⟩
  have hN : ∃ d, Op.start d ∈ [Op.start dockerRunFails, Op.setImageTag "6", Op.start dockerUp] :=
    ⟨dockerRunFails, List.mem_cons_self _ _⟩
  ⟨hall, hN, C1_exactly_one_launch _ hall hN⟩

/-- C2, evaluated on the code: a first `Start` whose launch fails returns the
error of the launch, and a second `Start` in the same process returns a nil
tear-down function together with a nil error. -/
theorem C2_second_Start_nil_nil :
    Start dockerRunFails Proc.init =
        .returned (none, some (.plain "can't start redis server: no such image")) procFailed ∧
      Start dockerRunFails procFailed = .returned (none, none) procFailed := by
  constructor <;> rfl

/-- C3: after a `Start` call that returned `f` with a nil error (the call that
launched the container, or a later one), whatever calls follow, a `Start` call
that finds the runtime connectable and alive returns `f` with a nil error,
leaves the package state as it found it, and that state has the address, the
stored tear-down function, the container handle and the record of launches of
the first call. -/
theorem C3_Start_idempotent (d : Docker) (s s1 : Proc) (f : Cleanup)
    (h : Start d s = .returned (some f, none) s1)
    (ops : List Op) (s2 : Proc) (hrun : run s1 ops = some s2)
    (d2 : Docker) (hd2 : d2.reachable) :
    Start d2 s2 = .returned (some f, none) s2 ∧ s2.launches = s1.launches ∧
      s2.addr = s1.addr ∧ s2.cleanup = s1.cleanup ∧ s2.resource = s1.resource := by
  obtain ⟨g1, g2⟩ := Start_returned_ok d s s1 (some f) h
  obtain ⟨a1, a2, a3, a4, a5⟩ := run_frozen ops s1 s2 g1 hrun
  refine ⟨?_, a5, a2, a3, a4⟩
  rw [Start_reachable_of_once d2 s2 hd2 (by rw [a1, g1]), a3, g2]

theorem C3_Start_idempotent_witness :
    Start dockerUp Proc.init =
        .returned (some { pool := some { id := 1, MaxWait := maxWait } }, none) procUp ∧
      run procUp [Op.setImageTag "6", Op.start dockerRunFails, Op.addr Fired.ctxDone] =
        some (SetImageTag "6" procUp) ∧
      dockerUp.reachable ∧
      (Start dockerUp (SetImageTag "6" procUp) =
          .returned (some { pool := some { id := 1, MaxWait := maxWait } }, none)
            (SetImageTag "6" procUp) ∧
        (SetImageTag "6" procUp).launches = procUp.launches ∧
        (SetImageTag "6" procUp).addr = procUp.addr ∧
        (SetImageTag "6" procUp).cleanup = procUp.cleanup ∧
        (SetImageTag "6" procUp).resource = procUp.resource) :=
  ⟨rfl, rfl, ⟨⟨_, rfl⟩, rfl⟩,
    C3_Start_idempotent dockerUp Proc.init procUp _ rfl
      [Op.setImageTag "6", Op.start dockerRunFails, Op.addr Fired.ctxDone] _ rfl
      dockerUp ⟨⟨_, rfl⟩, rfl⟩⟩

/-- C4 fails on the code: `Addr` is called with no address published, `Start`
publishes `localhost:6379` during the wait, the context is cancelled, and `Addr`
returns the empty string instead of the published address. -/
theorem C4_cancelled_returns_empty :
    Proc.init.addr = "" ∧ (Start dockerUp Proc.init).proc? = some procUp ∧
      procUp.addr = "localhost:6379" ∧
      (Addr Proc.init Fired.ctxDone procUp).value = "" ∧
      (Addr Proc.init Fired.ctxDone procUp).value ≠ procUp.addr := by
  decide

/-- C4 as amended: called with no address published, `Addr` goes through the
wait; when the grace period elapses it returns the address published at that
moment, and when the context is cancelled it returns the empty string. -/
theorem C4_Addr_wait (s later : Proc) (h : s.addr = "") :
    Addr s Fired.timeout later = { value := later.addr, waited := true } ∧
      Addr s Fired.ctxDone later = { value := "", waited := true } := by
  simp [Addr, h]

theorem C4_Addr_wait_witness :
    Proc.init.addr = "" ∧
      (Addr Proc.init Fired.timeout procUp = { value := procUp.addr, waited := true } ∧
        Addr Proc.init Fired.ctxDone procUp = { value := "", waited := true }) :=
  ⟨rfl, C4_Addr_wait Proc.init procUp rfl⟩

/-- C5: when the `Start` call that performs the launch (guard untaken, in a
state a process can reach) finds the runtime connectable and alive and
`RunWithOptions` fails with error `e` and no handle, the call returns a nil
tear-down function and the error with text "can't start redis server: " followed
by the text of `e`, and afterwards the address is empty, no tear-down function
is stored and no container handle is kept. -/
theorem C5_launch_failure (ops : List Op) (s : Proc) (hrun : run Proc.init ops = some s)
    (h0 : s.once = false) (d : Docker) (hd : d.reachable) (e : GoError)
    (hfail : d.RunWithOptions { Repository := "redis", Tag := s.redisVersion } = (none, some e)) :
    ∃ s1, Start d s =
        .returned (none, some (.plain ("can't start redis server: " ++ e.Error))) s1 ∧
      s1.addr = "" ∧ s1.cleanup = none ∧ s1.resource = none := by
  obtain ⟨⟨p, hp⟩, hping⟩ := hd
  rcases run_Inv ops Proc.init s Proc.init_Inv hrun with ⟨_, ha, hc, _, _⟩ | ⟨h1, _⟩
  · refine ⟨{ s with once := true, resource := none,
                      launches := s.launches ++ [{ Repository := "redis", Tag := s.redisVersion }] },
      ?_, ha, hc, rfl⟩
    simp [Start, hp, hping, h0, startOnce, hfail, Errorf_v]
  · rw [h1] at h0
    cases h0

theorem C5_launch_failure_witness :
    run Proc.init [Op.setImageTag "6", Op.addr Fired.timeout] = some (SetImageTag "6" Proc.init) ∧
      (SetImageTag "6" Proc.init).once = false ∧ dockerRunFails.reachable ∧
      dockerRunFails.RunWithOptions
          { Repository := "redis", Tag := (SetImageTag "6" Proc.init).redisVersion } =
        (none, some (.plain "no such image")) ∧
      ∃ s1, Start dockerRunFails (SetImageTag "6" Proc.init) =
          .returned (none, some (.plain ("can't start redis server: " ++
            (GoError.plain "no such image").Error))) s1 ∧
        s1.addr = "" ∧ s1.cleanup = none ∧ s1.resource = none :=
  ⟨rfl, rfl, ⟨⟨_, rfl⟩, rfl⟩, rfl,
    C5_launch_failure [Op.setImageTag "6", Op.addr Fired.timeout] _ rfl rfl dockerRunFails
      ⟨⟨_, rfl⟩, rfl⟩ (.plain "no such image") rfl⟩

/-- C6: once a `Start` call has taken the address from empty to a non-empty
`a`, then after every sequence of `Start`, `SetImageTag`, `Addr` and `Client`
calls the address is still `a`, and `Addr` returns `a` without going through the
wait, whichever case of its `select` would fire and whatever happens later. -/
theorem C6_addr_write_once (d : Docker) (s s1 : Proc) (a : String)
    (hstart : (Start d s).proc? = some s1) (hempty : s.addr = "") (ha : s1.addr = a)
    (hne : a ≠ "") (ops : List Op) (s2 : Proc) (hrun : run s1 ops = some s2)
    (fired : Fired) (later : Proc) :
    Addr s2 fired later = { value := a, waited := false } ∧ s2.addr = a := by
  have honce : s1.once = true := by
    cases hb : s.once with
    | true =>
      have := Start_of_once d s s1 hb hstart
      subst this
      exact absurd (ha.symm.trans hempty) hne
    | false =>
      rcases Start_fresh_cases d s s1 hb hstart with rfl | ⟨g, _⟩
      · exact absurd (ha.symm.trans hempty) hne
      · exact g
  obtain ⟨_, a2, _, _, _⟩ := run_frozen ops s1 s2 honce hrun
  have h2 : s2.addr = a := a2.trans ha
  refine ⟨?_, h2⟩
  simp [Addr, h2, hne]

theorem C6_addr_write_once_witness :
    (Start dockerUp Proc.init).proc? = some procUp ∧ Proc.init.addr = "" ∧
      procUp.addr = "localhost:6379" ∧ "localhost:6379" ≠ "" ∧
      run procUp [Op.start dockerRunFails, Op.setImageTag "6", Op.start dockerNoPool,
          Op.client Fired.timeout none] = some (SetImageTag "6" procUp) ∧
      (Addr (SetImageTag "6" procUp) Fired.ctxDone Proc.init =
          { value := "localhost:6379", waited := false } ∧
        (SetImageTag "6" procUp).addr = "localhost:6379") :=
  ⟨rfl, rfl, rfl, by decide, rfl,
    C6_addr_write_once dockerUp Proc.init procUp "localhost:6379" rfl rfl rfl (by decide)
      [Op.start dockerRunFails, Op.setImageTag "6", Op.start dockerNoPool,
        Op.client Fired.timeout none] _ rfl Fired.ctxDone Proc.init⟩

/-- C7 fails on the code: the retry loop ends with the probe error
"connection refused", and the error `Client` returns has no wrapped cause, so
the probe error cannot be taken back out of it. -/
theorem C7_cause_not_wrapped :
    Client procUp Fired.timeout procUp (some (.plain "connection refused")) =
        (none, some (.plain "[redistest] failed to connect to redis server: connection refused")) ∧
      (Client procUp Fired.timeout procUp (some (.plain "connection refused"))).2.bind
          GoError.Unwrap ≠ some (.plain "connection refused") := by
  decide

/-- C7 as amended: when the retry loop ends with error `e`, `Client` returns a
nil client and an error whose text is "[redistest] failed to connect to redis
server: " followed by the text of `e`, and that error has no wrapped cause. -/
theorem C7_Client_failure (s later : Proc) (fired : Fired) (e : GoError) :
    Client s fired later (some e) =
        (none, some (.plain ("[redistest] failed to connect to redis server: " ++ e.Error))) ∧
      (Client s fired later (some e)).2.bind GoError.Unwrap = none := by
  simp [Client, Errorf_v, GoError.Unwrap]

/-- C8: when the `Start` call that performs the launch finds the runtime
connectable and alive, `RunWithOptions` gives a handle and no error, and the
handle resolves port "6379/tcp" to `p`, the call returns a tear-down function
with a nil error, and the address is "localhost:" followed by `p`. -/
theorem C8_launch_success (d : Docker) (s : Proc) (pool : Pool) (r : Resource) (p : String)
    (h0 : s.once = false) (hpool : d.NewPool = (some pool, none)) (hping : d.Ping = none)
    (hrun : d.RunWithOptions { Repository := "redis", Tag := s.redisVersion } = (some r, none))
    (hport : r.GetPort "6379/tcp" = p) :
    ∃ f s1, Start d s = .returned (some f, none) s1 ∧ s1.addr = "localhost:" ++ p ∧
      s1.cleanup = some f ∧ s1.resource = some r := by
  refine ⟨{ pool := some { pool with MaxWait := maxWait } },
    { s with once := true, resource := some r,
             launches := s.launches ++ [{ Repository := "redis", Tag := s.redisVersion }],
             addr := "localhost:" ++ p,
             cleanup := some { pool := some { pool with MaxWait := maxWait } } }, ?_, rfl, rfl, rfl⟩
  simp [Start, hpool, hping, h0, startOnce, hrun, hport]

theorem C8_launch_success_witness :
    Proc.init.once = false ∧ dockerUp.NewPool = (some { id := 1, MaxWait := 0 }, none) ∧
      dockerUp.Ping = none ∧
      dockerUp.RunWithOptions { Repository := "redis", Tag := Proc.init.redisVersion } =
        (some { id := 7, ports := [("6379/tcp", "6379")] }, none) ∧
      Resource.GetPort { id := 7, ports := [("6379/tcp", "6379")] } "6379/tcp" = "6379" ∧
      ∃ f s1, Start dockerUp Proc.init = .returned (some f, none) s1 ∧
        s1.addr = "localhost:" ++ "6379" ∧ s1.cleanup = some f ∧
        s1.resource = some { id := 7, ports := [("6379/tcp", "6379")] } :=
  ⟨rfl, rfl, rfl, rfl, by decide,
    C8_launch_success dockerUp Proc.init _ _ "6379" rfl rfl rfl rfl (by decide)⟩

/-- C9: after any sequence of calls of a fresh process that has not taken the
guard, a `Start` call that finds the runtime connectable and alive makes the one
launch on record, with repository "redis" and the tag of the last `SetImageTag`
call of the sequence, "7.4.1-alpine" when there is none; and whatever sequence
of calls follows a later `SetImageTag`, the container handle, the address, the
stored tear-down function and the record of launches stay as the launch left
them. -/
theorem C9_launch_tag (ops : List Op) (s : Proc) (hrun : run Proc.init ops = some s)
    (h0 : s.once = false) (d : Docker) (hd : d.reachable) :
    ∃ s1, (Start d s).proc? = some s1 ∧
      s1.launches = [{ Repository := "redis", Tag := lastTag "7.4.1-alpine" ops }] ∧
      ∀ (v : String) (ops2 : List Op) (s2 : Proc),
        run s1 (Op.setImageTag v :: ops2) = some s2 →
          s2.resource = s1.resource ∧ s2.addr = s1.addr ∧ s2.cleanup = s1.cleanup ∧
            s2.launches = s1.launches := by
  obtain ⟨s1, g1, g2, g3⟩ := Start_reachable_fresh d s hd h0
  refine ⟨s1, g1, ?_, ?_⟩
  · rcases run_Inv ops Proc.init s Proc.init_Inv hrun with ⟨_, _, _, _, hl⟩ | ⟨h1, _⟩
    · rw [g3, hl, run_redisVersion ops Proc.init s hrun]
      rfl
    · rw [h1] at h0
      cases h0
  · intro v ops2 s2 h2
    obtain ⟨_, a2, a3, a4, a5⟩ := run_frozen _ s1 s2 g2 h2
    exact ⟨a4, a2, a3, a5⟩

theorem C9_launch_tag_witness :
    run Proc.init [Op.setImageTag "6", Op.start dockerNoPool, Op.setImageTag "7.2"] =
        some (SetImageTag "7.2" Proc.init) ∧
      (SetImageTag "7.2" Proc.init).once = false ∧ dockerUp.reachable ∧
      ∃ s1, (Start dockerUp (SetImageTag "7.2" Proc.init)).proc? = some s1 ∧
        s1.launches = [{ Repository := "redis", Tag := (lastTag "7.4.1-alpine"
          [Op.setImageTag "6", Op.start dockerNoPool, Op.setImageTag "7.2"]) }] ∧
        ∀ (v : String) (ops2 : List Op) (s2 : Proc),
          run s1 (Op.setImageTag v :: ops2) = some s2 →
            s2.resource = s1.resource ∧ s2.addr = s1.addr ∧ s2.cleanup = s1.cleanup ∧
              s2.launches = s1.launches :=
  ⟨rfl, rfl, ⟨⟨_, rfl⟩, rfl⟩,
    C9_launch_tag [Op.setImageTag "6", Op.start dockerNoPool, Op.setImageTag "7.2"] _ rfl rfl
      dockerUp ⟨⟨_, rfl⟩, rfl⟩⟩

/-- C10, evaluated on the code: when `NewPool` gives no pool handle, `Start`
faults on the assignment to `pool.MaxWait` (line 83) before it looks at the
error, in every package state and whatever error came with the nil handle; it
returns nothing, and the package state is left as it was. -/
theorem C10_Start_panics_without_pool (d : Docker) (s : Proc) (err : Option GoError)
    (h : d.NewPool = (none, err)) :
    Start d s = .panicked s ∧ (Start d s).value? = none := by
  simp [Start, h, Outcome.value?]

theorem C10_Start_panics_without_pool_witness :
    dockerNoPool.NewPool = (none, some (.plain "invalid endpoint")) ∧
      (Start dockerNoPool Proc.init = .panicked Proc.init ∧
        (Start dockerNoPool Proc.init).value? = none) :=
  ⟨rfl, C10_Start_panics_without_pool dockerNoPool Proc.init _ rfl⟩

end Redistest
